import Mathlib

/-!
Verification development for the zenoh-flow repository.

The `zenoh-flow-commons` crate (`vars.rs`, `utils.rs`) is embedded directly
from its source. The runtime crate (firing engine, dataflow builder,
lifecycle manager) is exercised only through its tests in this repository,
so those parts are modelled from the specification; each such definition
carries a doc comment starting with `Modelled from the spec:`.

Machine maps (`HashMap`) are embedded as association lists with unique keys;
strings read from files are embedded as `String` or `List Char`; wall-clock
instants and durations are embedded as natural numbers.
-/

namespace ZenohFlow

/-- Association-list lookup: the embedding of `HashMap::get`. Returns the
value of the first entry whose key matches. -/
def assocLookup {β : Type} : List (String × β) → String → Option β
  | [], _ => none
  | (k0, v0) :: rest, k => if k0 = k then some v0 else assocLookup rest k

/-- Association-list insert: the embedding of `HashMap::insert`. Replaces the
first entry with the given key, or appends a fresh entry when absent. -/
def insertVar {β : Type} : List (String × β) → String → β → List (String × β)
  | [], k, v => [(k, v)]
  | (k0, v0) :: rest, k, v =>
    if k0 = k then (k0, v) :: rest else (k0, v0) :: insertVar rest k v

/-- Association-list in-place update: replaces the value of the first entry
with the given key; leaves the list unchanged when the key is absent. -/
def assocUpdate {β : Type} : List (String × β) → String → β → List (String × β)
  | [], _, _ => []
  | (k0, v0) :: rest, k, v =>
    if k0 = k then (k0, v) :: rest else (k0, v0) :: assocUpdate rest k v

/-- `Vars` (zenoh-flow-commons/src/vars.rs): a map from variable names to
values, embedded as an association list with unique keys. -/
abbrev Vars := List (String × String)

/-- Embeds `Vars::merge_overwrite` (vars.rs lines 63-72):
`merged = (*other.vars).clone(); merged.extend((*self.vars).clone())` —
start from `other` and insert every entry of `self`, so `self` wins on
common keys. -/
def merge_overwrite (self other : Vars) : Vars :=
  self.foldl (fun acc kv => insertVar acc kv.1 kv.2) other

/-- Embeds Rust `str::find('=')` over the character-list view of a string:
index of the first occurrence of `c`, or `none`. -/
def findChar (c : Char) : List Char → Option Nat
  | [] => none
  | x :: xs => if x = c then some 0 else (findChar c xs).map (fun i => i + 1)

/-- Embeds `parse_vars` (vars.rs lines 100-114): split the input at the first
`=`; fail when there is none; parse the key from the part before it and the
value from the part after it with the two caller-supplied parsers (the
`FromStr` instances of the Rust generic). -/
def parse_vars {α β : Type} (pT : List Char → Except String α)
    (pU : List Char → Except String β) (s : List Char) : Except String (α × β) :=
  match findChar '=' s with
  | none => .error "invalid KEY=value: no eq found"
  | some pos =>
    match pT (s.take pos) with
    | .error e => .error e
    | .ok k =>
      match pU (s.drop (pos + 1)) with
      | .error e => .error e
      | .ok v => .ok (k, v)

/-- The two supported descriptor formats of `deserializer` (utils.rs). -/
inductive Format
  | json
  | yaml
deriving DecidableEq

/-- The error cases of `deserializer` (utils.rs lines 35-48). -/
inductive DeserializerError
  | unsupportedExtension (ext : String)
  | missingExtension
deriving DecidableEq

/-- Embeds `deserializer` (utils.rs lines 22-50): select the parsing format
from the path's extension (`path.extension().and_then(to_str)`, embedded as
an `Option String`); `json` yields JSON, `yml`/`yaml` yield YAML, any other
extension or a missing extension is an error. -/
def deserializer (ext : Option String) : Except DeserializerError Format :=
  match ext with
  | some e =>
    if e = "json" then .ok .json
    else if e = "yml" then .ok .yaml
    else if e = "yaml" then .ok .yaml
    else .error (.unsupportedExtension e)
  | none => .error .missingExtension

/-- Errors that `try_load_from_file` can propagate. -/
inductive LoadError
  | deser (e : DeserializerError)
  | failedDeserializeVars
  | failedExpand
  | failedDeserializeDescriptor
deriving DecidableEq

/-- Embeds `try_load_from_file` (utils.rs lines 61-99). The file system is
abstracted: `ext` is the canonicalized path's extension and `content` the
file's content. The serde parsers and the handlebars rendering are
abstracted as function parameters. The order of steps follows the source:
select the `Vars` deserializer from the extension, parse the `vars` section,
merge the caller's `vars` over it with `merge_overwrite`, render the content
with the merged map, then select the descriptor deserializer (again from the
extension) and parse the rendered descriptor. -/
def try_load_from_file {N : Type} (ext : Option String) (content : String)
    (vars : Vars) (parseVarsSection : Format → String → Except LoadError Vars)
    (render : String → Vars → Except LoadError String)
    (parseDescriptor : Format → String → Except LoadError N) :
    Except LoadError (N × Vars) :=
  match deserializer ext with
  | .error e => .error (.deser e)
  | .ok fmt =>
    match parseVarsSection fmt content with
    | .error e => .error e
    | .ok fileVars =>
      let merged := merge_overwrite vars fileVars
      match render content merged with
      | .error e => .error e
      | .ok rendered =>
        match deserializer ext with
        | .error e => .error (.deser e)
        | .ok fmt2 =>
          match parseDescriptor fmt2 rendered with
          | .error e => .error e
          | .ok n => .ok (n, merged)

/-- Whether an `Except` value is a success. -/
def exceptOk {ε α : Type} : Except ε α → Bool
  | .ok _ => true
  | .error _ => false

/-- Modelled from the spec: the per-token disposition
`Action ∈ \x7b Consume (default), Keep, Drop \x7d` (spec section 3). The
runtime crate defining it is not part of this repository snapshot. -/
inductive Action
  | Consume
  | Keep
  | Drop
deriving DecidableEq

/-- Modelled from the spec: a `Token`, one per input port during a firing
attempt, either `Pending` or `Ready` with a message and an action
(spec section 3). -/
inductive Token (μ : Type)
  | Pending
  | Ready (msg : μ) (action : Action)
deriving DecidableEq

/-- Whether a token is `Ready`. -/
def Token.isReady {μ : Type} : Token μ → Bool
  | .Pending => false
  | .Ready _ _ => true

/-- Modelled from the spec: the default input rule fires iff every input
port's token is `Ready` (spec section 4.2); it mutates no token action.
`tokens` is the per-input-port token map, one entry per declared port. -/
def default_input_rule {μ : Type} (tokens : List (String × Token μ)) : Bool :=
  tokens.all (fun pt => pt.2.isReady)

/-- Modelled from the spec: the Gather phase (spec section 4.3 step 3). For
each port whose token is `Ready` with action `Consume`, move its message into
the inputs map and reset the token to `Pending`; `Keep` retains message and
token; `Drop` discards the message and resets the token to `Pending`.
Returns the inputs map and the updated token map. -/
def gather {μ : Type} :
    List (String × Token μ) → List (String × μ) × List (String × Token μ)
  | [] => ([], [])
  | (p, t) :: rest =>
    let r := gather rest
    match t with
    | .Ready m .Consume => ((p, m) :: r.1, (p, .Pending) :: r.2)
    | .Ready m .Keep => (r.1, (p, .Ready m .Keep) :: r.2)
    | .Ready _ .Drop => (r.1, (p, .Pending) :: r.2)
    | .Pending => (r.1, (p, .Pending) :: r.2)

/-- Trace of one firing cycle of a single-input operator: whether the rule
fired, the messages handed to `run`, the messages emitted downstream, and
the message still held by the token afterwards (if any). -/
structure CycleTrace (μ ν : Type) where
  fired : Bool
  runInputs : List μ
  emitted : List ν
  remaining : Option μ
deriving DecidableEq

/-- Modelled from the spec: one firing cycle of a single-input operator
(spec section 4.3). A message arrival makes the token
`Ready (message, Consume)`; `input_rule` may change the action and returns
whether to fire (embedded as `rule : message → final action × fire`).
On `fire = true` the Gather phase collects the `Consume` inputs, `run` is
called on them and its outputs are dispatched downstream. On `fire = false`
the per-token action is applied: `Drop` discards the message; otherwise the
message stays with the token. -/
def fireCycle {μ ν : Type} (rule : μ → Action × Bool) (runf : List μ → List ν)
    (m : μ) : CycleTrace μ ν :=
  let ab := rule m
  if ab.2 then
    let g := gather [("in", Token.Ready m ab.1)]
    let ins := g.1.map Prod.snd
    { fired := true
      runInputs := ins
      emitted := runf ins
      remaining :=
        match g.2 with
        | [(_, Token.Ready m2 _)] => some m2
        | _ => none }
  else
    match ab.1 with
    | .Drop => { fired := false, runInputs := [], emitted := [], remaining := none }
    | _ => { fired := false, runInputs := [], emitted := [], remaining := some m }

/-- Modelled from the spec: the operator runner loop over a stream of
arrivals on its single input port, concatenating everything dispatched
downstream. A cycle that leaves the message held by the token re-enters
Evaluate with the same token and a deterministic rule decides identically,
so the loop makes no further progress: the pipeline stalls. -/
def runPipeline {μ ν : Type} (rule : μ → Action × Bool)
    (runf : List μ → List ν) : List μ → List ν
  | [] => []
  | m :: ms =>
    let c := fireCycle rule runf m
    match c.remaining with
    | some _ => c.emitted
    | none => c.emitted ++ runPipeline rule runf ms

/-- Embeds `DropOdd::input_rule` (tests/input_rule_drop.rs lines 107-127):
on a `Ready` token whose value is odd, set the action to `Drop` and return
`false`; on an even value return `true` (action left at `Consume`). -/
def dropOddRule (n : Nat) : Action × Bool :=
  if n % 2 != 0 then (.Drop, false) else (.Consume, true)

/-- Embeds `DropOdd::run` (tests/input_rule_drop.rs lines 129-146): forward
the consumed value unchanged to the single output port. -/
def forwardRun (xs : List Nat) : List Nat := xs

/-- Modelled from the spec: `LocalDeadlineMiss` with fields start, end,
configured, observed (spec section 3); `end` is a Lean keyword so the field
is named `finish`. Timestamps and durations are naturals. -/
structure LocalDeadlineMiss where
  start : Nat
  finish : Nat
  configured : Nat
  observed : Nat
deriving DecidableEq

/-- Modelled from the spec: the deadline check of the firing engine
(spec section 4.3 step 5): `firing_duration = now() - firing_start`; if the
operator has a configured `local_deadline` and
`firing_duration > local_deadline`, construct a `LocalDeadlineMiss`;
otherwise there is none. -/
def deadlineCheck (local_deadline : Option Nat) (firing_start now_ts : Nat) :
    Option LocalDeadlineMiss :=
  match local_deadline with
  | none => none
  | some configured =>
    let observed := now_ts - firing_start
    if configured < observed then
      some { start := firing_start, finish := now_ts
             configured := configured, observed := observed }
    else none

/-- Modelled from the spec: step 6 of the firing cycle invokes
`output_rule(Context, State, outputs, deadline_miss)` with the deadline miss
computed by the deadline check (spec section 4.3 step 6). -/
def invokeOutputRule {ν ω : Type} (local_deadline : Option Nat)
    (firing_start now_ts : Nat)
    (output_rule : List (String × ν) → Option LocalDeadlineMiss → ω)
    (outputs : List (String × ν)) : ω :=
  output_rule outputs (deadlineCheck local_deadline firing_start now_ts)

/-- `PortDescriptor` (spec section 3): a port id together with the port type,
compared by string equality when validating a link. -/
structure PortDescriptor where
  port_id : String
  port_type : String
deriving DecidableEq

/-- Modelled from the spec: the operator entry of the builder state —
declared inputs, declared outputs, and the optional local deadline
(spec section 3, `Dataflow` builder state). -/
structure OperatorRecord where
  inputs : List PortDescriptor
  outputs : List PortDescriptor
  local_deadline : Option Nat
deriving DecidableEq

/-- A static link of the builder state (spec section 3). -/
structure Link where
  from_node : String
  from_port : String
  to_node : String
  to_port : String
deriving DecidableEq

/-- `OutputDescriptor` of `try_add_link` (tests/local_deadline.rs): the
upstream endpoint. -/
structure OutputDescriptor where
  node : String
  output : String
deriving DecidableEq

/-- `InputDescriptor` of `try_add_link` (tests/local_deadline.rs): the
downstream endpoint. -/
structure InputDescriptor where
  node : String
  input : String
deriving DecidableEq

/-- Modelled from the spec: the `Dataflow` builder state (spec section 3) —
sources, operators and sinks keyed by node id, plus the ordered links.
Node states and user objects are irrelevant to the builder invariants and
elided. -/
structure Dataflow where
  sources : List (String × PortDescriptor)
  operators : List (String × OperatorRecord)
  sinks : List (String × PortDescriptor)
  links : List Link
deriving DecidableEq

/-- Modelled from the spec: the builder error taxonomy (spec section 7). -/
inductive BuilderError
  | DuplicateNode
  | UnknownPort
  | PortTypeMismatch
  | DuplicateLink
deriving DecidableEq

/-- All node ids currently registered in the builder. -/
def nodeIds (df : Dataflow) : List String :=
  df.sources.map Prod.fst ++ df.operators.map Prod.fst ++ df.sinks.map Prod.fst

/-- Modelled from the spec: `try_add_static_source` (spec section 4.6) —
reject a duplicate node id, otherwise record the source with its single
output port. -/
def try_add_static_source (df : Dataflow) (id : String) (output : PortDescriptor) :
    Except BuilderError Dataflow :=
  if id ∈ nodeIds df then .error .DuplicateNode
  else .ok { df with sources := df.sources ++ [(id, output)] }

/-- Modelled from the spec: `try_add_static_operator` (spec section 4.6) —
reject a duplicate node id, otherwise record the operator with its declared
input and output ports and its optional local deadline. -/
def try_add_static_operator (df : Dataflow) (id : String)
    (inputs outputs : List PortDescriptor) (local_deadline : Option Nat) :
    Except BuilderError Dataflow :=
  if id ∈ nodeIds df then .error .DuplicateNode
  else .ok { df with operators :=
    df.operators ++ [(id, ⟨inputs, outputs, local_deadline⟩)] }

/-- Modelled from the spec: `try_add_static_sink` (spec section 4.6) —
reject a duplicate node id, otherwise record the sink with its single input
port. -/
def try_add_static_sink (df : Dataflow) (id : String) (input : PortDescriptor) :
    Except BuilderError Dataflow :=
  if id ∈ nodeIds df then .error .DuplicateNode
  else .ok { df with sinks := df.sinks ++ [(id, input)] }

/-- The type of an output endpoint, when it exists: a source's single output
port or one of an operator's declared output ports. -/
def outputPortType (df : Dataflow) (node port : String) : Option String :=
  match assocLookup df.sources node with
  | some pd => if pd.port_id = port then some pd.port_type else none
  | none =>
    match assocLookup df.operators node with
    | some op => (op.outputs.find? (fun pd => pd.port_id = port)).map PortDescriptor.port_type
    | none => none

/-- The type of an input endpoint, when it exists: a sink's single input
port or one of an operator's declared input ports. -/
def inputPortType (df : Dataflow) (node port : String) : Option String :=
  match assocLookup df.sinks node with
  | some pd => if pd.port_id = port then some pd.port_type else none
  | none =>
    match assocLookup df.operators node with
    | some op => (op.inputs.find? (fun pd => pd.port_id = port)).map PortDescriptor.port_type
    | none => none

/-- Whether some registered link already feeds the given input port. -/
def hasInboundLink (df : Dataflow) (node port : String) : Bool :=
  df.links.any (fun l => l.to_node = node ∧ l.to_port = port)

/-- Modelled from the spec: `try_add_link` (spec sections 3 and 4.6) — both
endpoints must exist (`UnknownPort`), their port types must be equal as
strings (`PortTypeMismatch`), and the input port must not already have an
incoming link (`DuplicateLink`); otherwise the link is appended. -/
def try_add_link (df : Dataflow) (src : OutputDescriptor) (dst : InputDescriptor) :
    Except BuilderError Dataflow :=
  match outputPortType df src.node src.output, inputPortType df dst.node dst.input with
  | some tOut, some tIn =>
    if tOut = tIn then
      if hasInboundLink df dst.node dst.input then .error .DuplicateLink
      else .ok { df with links :=
        df.links ++ [⟨src.node, src.output, dst.node, dst.input⟩] }
    else .error .PortTypeMismatch
  | _, _ => .error .UnknownPort

/-- Modelled from the spec: the lifecycle status of a node's runner task
(spec section 4.7). -/
inductive NodeStatus
  | idle
  | running
  | stopped
  | killed
deriving DecidableEq

/-- Modelled from the spec: the lifecycle-relevant state of one node — its
runner status and how many times its `finalize` has been invoked. -/
structure NodeState where
  status : NodeStatus
  finalizeCount : Nat
deriving DecidableEq

/-- Modelled from the spec: the observable state of a `DataflowInstance`
(spec section 4.7) — per-node lifecycle state, the global order in which
`finalize` callbacks have been invoked, and how many runner tasks have been
spawned in total. -/
structure InstanceState where
  nodes : List (String × NodeState)
  finalizeLog : List String
  tasksSpawned : Nat
deriving DecidableEq

/-- Modelled from the spec: the lifecycle error taxonomy (spec section 7),
plus the lookup failure for an unknown node id. -/
inductive LifecycleError
  | AlreadyRunning
  | NotRunning
  | NodeNotFound
deriving DecidableEq

/-- Modelled from the spec: `start_node(id)` (spec section 4.7) — spawns a
supervised task executing the runner; calling it on an already-started node
returns `AlreadyRunning` and changes nothing. -/
def start_node (inst : InstanceState) (id : String) :
    Except LifecycleError InstanceState :=
  match assocLookup inst.nodes id with
  | none => .error .NodeNotFound
  | some ns =>
    if ns.status = .running then .error .AlreadyRunning
    else .ok { inst with
      nodes := assocUpdate inst.nodes id { ns with status := .running }
      tasksSpawned := inst.tasksSpawned + 1 }

/-- Modelled from the spec: `stop_node(id)` (spec section 4.7) — signals
cooperative cancellation, awaits the task, and invokes `finalize`; on a node
that is not running it returns `NotRunning`. -/
def stop_node (inst : InstanceState) (id : String) :
    Except LifecycleError InstanceState :=
  match assocLookup inst.nodes id with
  | none => .error .NodeNotFound
  | some ns =>
    if ns.status = .running then
      .ok { inst with
        nodes := assocUpdate inst.nodes id
          { status := .stopped, finalizeCount := ns.finalizeCount + 1 }
        finalizeLog := inst.finalizeLog ++ [id] }
    else .error .NotRunning

/-- Modelled from the spec: `kill(id)` (spec section 4.7) — aborts the task
without awaiting it; `finalize` is skipped, so the finalize count is left
untouched. -/
def kill (inst : InstanceState) (id : String) :
    Except LifecycleError InstanceState :=
  match assocLookup inst.nodes id with
  | none => .error .NodeNotFound
  | some ns => .ok { inst with
      nodes := assocUpdate inst.nodes id { ns with status := .killed } }

/-- A node that is running and whose `finalize` has never been invoked. -/
def runningFresh (inst : InstanceState) (id : String) : Prop :=
  assocLookup inst.nodes id = some { status := .running, finalizeCount := 0 }

/-- Stop a sequence of nodes with `stop_node`, in order, failing fast. -/
def stopAll (inst : InstanceState) : List String → Except LifecycleError InstanceState
  | [] => .ok inst
  | id :: ids =>
    match stop_node inst id with
    | .error e => .error e
    | .ok inst2 => stopAll inst2 ids

/-- The finalize invocation order recorded by a lifecycle result
(empty on error). -/
def logOf : Except LifecycleError InstanceState → List String
  | .ok i => i.finalizeLog
  | .error _ => []

/-- The finalize invocation count of a node in a lifecycle result. -/
def countOf (r : Except LifecycleError InstanceState) (id : String) : Option Nat :=
  match r with
  | .ok i => (assocLookup i.nodes id).map NodeState.finalizeCount
  | .error _ => none

theorem assocLookup_insertVar_self {β : Type} (l : List (String × β)) (k : String) (v : β) :
    assocLookup (insertVar l k v) k = some v := by
  induction l with
  | nil => simp [insertVar, assocLookup]
  | cons hd tl ih =>
    obtain ⟨k0, v0⟩ := hd
    by_cases h : k0 = k
    · subst h
      simp [insertVar, assocLookup]
    · simp [insertVar, assocLookup, h, ih]

theorem assocLookup_insertVar_ne {β : Type} (l : List (String × β)) (k k2 : String)
    (v : β) (h : k ≠ k2) :
    assocLookup (insertVar l k v) k2 = assocLookup l k2 := by
  induction l with
  | nil => simp [insertVar, assocLookup, h]
  | cons hd tl ih =>
    obtain ⟨k0, v0⟩ := hd
    by_cases h0 : k0 = k
    · subst h0
      simp [insertVar, assocLookup, h]
    · simp [insertVar, assocLookup, h0, ih]

theorem assocLookup_eq_none_iff {β : Type} (l : List (String × β)) (k : String) :
    assocLookup l k = none ↔ k ∉ l.map Prod.fst := by
  induction l with
  | nil => simp [assocLookup]
  | cons hd tl ih =>
    obtain ⟨k0, v0⟩ := hd
    by_cases h : k0 = k
    · subst h
      simp [assocLookup]
    · have hne : ¬k = k0 := fun hh => h hh.symm
      simp [assocLookup, h, ih, hne]

theorem assocLookup_foldl_insertVar_not_mem {β : Type} (a : List (String × β))
    (b : List (String × β)) (k : String) (h : k ∉ a.map Prod.fst) :
    assocLookup (a.foldl (fun acc kv => insertVar acc kv.1 kv.2) b) k = assocLookup b k := by
  induction a generalizing b with
  | nil => simp
  | cons hd tl ih =>
    obtain ⟨k0, v0⟩ := hd
    simp only [List.map_cons, List.mem_cons, not_or] at h
    simp only [List.foldl_cons]
    rw [ih (insertVar b k0 v0) h.2]
    exact assocLookup_insertVar_ne b k0 k v0 (fun hh => h.1 hh.symm)

theorem merge_overwrite_lookup_left (a b : Vars) (k v : String)
    (hnd : (a.map Prod.fst).Nodup) (h : assocLookup a k = some v) :
    assocLookup (merge_overwrite a b) k = some v := by
  induction a generalizing b with
  | nil => simp [assocLookup] at h
  | cons hd tl ih =>
    obtain ⟨k0, v0⟩ := hd
    simp only [List.map_cons, List.nodup_cons] at hnd
    simp only [merge_overwrite, List.foldl_cons] at *
    by_cases hk : k0 = k
    · subst hk
      simp only [assocLookup, if_pos rfl] at h
      rw [assocLookup_foldl_insertVar_not_mem tl (insertVar b k0 v0) k0 hnd.1]
      rw [assocLookup_insertVar_self]
      exact congrArg some (Option.some.inj h)
    · have h2 : assocLookup tl k = some v := by
        simpa [assocLookup, hk] using h
      exact ih (insertVar b k0 v0) hnd.2 h2

theorem merge_overwrite_lookup_right (a b : Vars) (k : String)
    (h : assocLookup a k = none) :
    assocLookup (merge_overwrite a b) k = assocLookup b k := by
  have hm : k ∉ a.map Prod.fst := (assocLookup_eq_none_iff a k).1 h
  simpa [merge_overwrite] using assocLookup_foldl_insertVar_not_mem a b k hm

/-- C8: `merge_overwrite` lets `self` win. For every pair of `Vars` maps `a`
and `b` and key `k`, `merge_overwrite a b` maps `k` to `a`'s value when `k`
is in `a`, to `b`'s value when `k` is only in `b`, and to nothing when `k`
is in neither; consequently in `try_load_from_file` the caller-supplied
`Vars` take precedence over the `vars` section of the descriptor file. -/
theorem c8_merge_overwrite_precedence :
    (∀ (a b : Vars) (k v : String), (a.map Prod.fst).Nodup →
        assocLookup a k = some v → assocLookup (merge_overwrite a b) k = some v)
    ∧ (∀ (a b : Vars) (k : String), assocLookup a k = none →
        assocLookup (merge_overwrite a b) k = assocLookup b k)
    ∧ (∀ (a b : Vars) (k : String), assocLookup a k = none → assocLookup b k = none →
        assocLookup (merge_overwrite a b) k = none)
    ∧ (∀ (N : Type) (ext : Option String) (content : String) (vars : Vars)
        (pv : Format → String → Except LoadError Vars)
        (r : String → Vars → Except LoadError String)
        (pn : Format → String → Except LoadError N) (n : N) (merged : Vars),
        try_load_from_file ext content vars pv r pn = .ok (n, merged) →
        (vars.map Prod.fst).Nodup →
        ∀ k v, assocLookup vars k = some v → assocLookup merged k = some v) := by
  refine ⟨fun a b k v hnd h => merge_overwrite_lookup_left a b k v hnd h,
    fun a b k h => merge_overwrite_lookup_right a b k h,
    fun a b k ha hb => by rw [merge_overwrite_lookup_right a b k ha, hb],
    ?_⟩
  intro N ext content vars pv r pn n merged h hnd k v hk
  unfold try_load_from_file at h
  cases hde : deserializer ext with
  | error e => simp [hde] at h
  | ok fmt =>
    simp only [hde] at h
    cases hpv : pv fmt content with
    | error e => simp [hpv] at h
    | ok fileVars =>
      simp only [hpv] at h
      cases hr : r content (merge_overwrite vars fileVars) with
      | error e => simp [hr] at h
      | ok rendered =>
        simp only [hr] at h
        cases hpn : pn fmt rendered with
        | error e => simp [hpn] at h
        | ok n2 =>
          simp only [hpn, Except.ok.injEq, Prod.mk.injEq] at h
          rw [← h.2]
          exact merge_overwrite_lookup_left vars fileVars k v hnd hk

/-- Witness for C8 at concrete maps: the key `x`, present in both, keeps the
first map's value; the key `y`, present only in the second map, keeps the
second map's value. -/
theorem c8_witness :
    assocLookup (merge_overwrite [("x", "1")] [("x", "2"), ("y", "3")]) "x" = some "1" :=
  c8_merge_overwrite_precedence.1 [("x", "1")] [("x", "2"), ("y", "3")] "x" "1"
    (by decide) (by rfl)

theorem findChar_eq_none_iff (c : Char) (s : List Char) :
    findChar c s = none ↔ c ∉ s := by
  induction s with
  | nil => simp [findChar]
  | cons x xs ih =>
    by_cases h : x = c
    · subst h
      simp [findChar]
    · have hne : ¬c = x := fun hh => h hh.symm
      simp [findChar, h, ih, hne]

theorem findChar_append_cons (k v : List Char) (h : '=' ∉ k) :
    findChar '=' (k ++ '=' :: v) = some k.length := by
  induction k with
  | nil => simp [findChar]
  | cons x xs ih =>
    simp only [List.mem_cons, not_or] at h
    have hx : ¬x = '=' := fun hh => h.1 hh.symm
    simp [findChar, hx, ih h.2]

/-- C9: `parse_vars` fails exactly when the input has no `=` (or one of the
two component parses fails); otherwise the key is the part before the first
`=` and the value the part after it, so a value containing further `=`
characters is passed to the value parser intact. -/
theorem c9_parse_vars_split :
    (∀ (s : List Char), findChar '=' s = none ↔ '=' ∉ s)
    ∧ (∀ (α β : Type) (pT : List Char → Except String α)
        (pU : List Char → Except String β) (s : List Char),
        exceptOk (parse_vars pT pU s) = true ↔
          ∃ pos, findChar '=' s = some pos ∧
            exceptOk (pT (s.take pos)) = true ∧
            exceptOk (pU (s.drop (pos + 1))) = true)
    ∧ (∀ (α β : Type) (pT : List Char → Except String α)
        (pU : List Char → Except String β) (k v : List Char) (a : α) (b : β),
        '=' ∉ k → pT k = .ok a → pU v = .ok b →
        parse_vars pT pU (k ++ '=' :: v) = .ok (a, b)) := by
  refine ⟨fun s => findChar_eq_none_iff '=' s, ?_, ?_⟩
  · intro α β pT pU s
    cases hf : findChar '=' s with
    | none => simp [parse_vars, hf, exceptOk]
    | some pos =>
      simp only [parse_vars, hf]
      cases hT : pT (s.take pos) with
      | error e => simp [hT, exceptOk]
      | ok a =>
        cases hU : pU (s.drop (pos + 1)) with
        | error e => simp [hT, hU, exceptOk]
        | ok b => simp [hT, hU, exceptOk]
  · intro α β pT pU k v a b hk hT hU
    have hf : findChar '=' (k ++ '=' :: v) = some k.length :=
      findChar_append_cons k v hk
    have h1 : (k ++ '=' :: v).take k.length = k := by
      rw [List.take_left]
    have h2 : (k ++ '=' :: v).drop (k.length + 1) = v := by
      have he : k ++ '=' :: v = (k ++ ['=']) ++ v := by simp
      have hl : (k ++ ['=']).length = k.length + 1 := by simp
      rw [he, ← hl, List.drop_left]
    simp only [parse_vars, hf, h1, h2, hT, hU]

/-- Witness for C9 at a concrete input: key `K`, value `B=C` — the second
`=` stays in the value. -/
theorem c9_witness :
    parse_vars (fun l => Except.ok l) (fun l => Except.ok l)
      (['K'] ++ '=' :: ['B', '=', 'C']) = .ok (['K'], ['B', '=', 'C']) :=
  c9_parse_vars_split.2.2 (List Char) (List Char)
    (fun l => Except.ok l) (fun l => Except.ok l)
    ['K'] ['B', '=', 'C'] ['K'] ['B', '=', 'C'] (by decide) rfl rfl

/-- C10: `deserializer` succeeds exactly for the extensions `json`, `yml`
and `yaml`; on any other extension, or a missing one, `try_load_from_file`
fails with the propagated deserializer error and the rendering step is never
reached (the result does not depend on the rendering function). -/
theorem c10_deserializer_extension :
    (∀ ext : Option String,
        exceptOk (deserializer ext) = true ↔
          ext = some "json" ∨ ext = some "yml" ∨ ext = some "yaml")
    ∧ (∀ (N : Type) (ext : Option String) (content : String) (vars : Vars)
        (pv : Format → String → Except LoadError Vars)
        (r r2 : String → Vars → Except LoadError String)
        (pn : Format → String → Except LoadError N),
        ¬(ext = some "json" ∨ ext = some "yml" ∨ ext = some "yaml") →
        exceptOk (try_load_from_file ext content vars pv r pn) = false
        ∧ try_load_from_file ext content vars pv r pn
            = try_load_from_file ext content vars pv r2 pn) := by
  constructor
  · intro ext
    cases ext with
    | none => simp [deserializer, exceptOk]
    | some e =>
      by_cases h1 : e = "json"
      · subst h1
        simp [deserializer, exceptOk]
      · by_cases h2 : e = "yml"
        · subst h2
          simp [deserializer, exceptOk]
        · by_cases h3 : e = "yaml"
          · subst h3
            simp [deserializer, exceptOk]
          · simp [deserializer, h1, h2, h3, exceptOk]
  · intro N ext content vars pv r r2 pn hbad
    have hde : ∃ e0, deserializer ext = .error e0 := by
      cases ext with
      | none => exact ⟨.missingExtension, rfl⟩
      | some e =>
        push_neg at hbad
        have h1 : ¬e = "json" := fun hh => hbad.1 (congrArg some hh)
        have h2 : ¬e = "yml" := fun hh => hbad.2.1 (congrArg some hh)
        have h3 : ¬e = "yaml" := fun hh => hbad.2.2 (congrArg some hh)
        exact ⟨.unsupportedExtension e, by simp [deserializer, h1, h2, h3]⟩
    obtain ⟨e0, hde0⟩ := hde
    constructor
    · simp [try_load_from_file, hde0, exceptOk]
    · simp [try_load_from_file, hde0]

/-- Witness for C10 at a concrete path extension `txt`: loading fails and
the result is the same for two different rendering functions. -/
theorem c10_witness :
    exceptOk (try_load_from_file (N := Nat) (some "txt") "" []
        (fun _ _ => .ok []) (fun _ _ => .ok "") (fun _ _ => .ok 0)) = false
    ∧ try_load_from_file (N := Nat) (some "txt") "" []
        (fun _ _ => .ok []) (fun _ _ => .ok "") (fun _ _ => .ok 0)
      = try_load_from_file (some "txt") "" []
        (fun _ _ => .ok []) (fun _ _ => .error .failedExpand) (fun _ _ => .ok 0) :=
  c10_deserializer_extension.2 Nat (some "txt") "" []
    (fun _ _ => .ok []) (fun _ _ => .ok "") (fun _ _ => .error .failedExpand)
    (fun _ _ => .ok 0) (by decide)

/-- C1: with a configured `local_deadline`, the deadline miss handed to
`output_rule` after `run` is non-empty exactly when the firing duration
`now - firing_start` exceeded the deadline; with no configured deadline it
is always empty; and `output_rule` receives precisely the result of the
deadline check. -/
theorem c1_deadline_miss_reporting :
    (∀ (d firing_start now_ts : Nat),
        (deadlineCheck (some d) firing_start now_ts).isSome = true ↔
          d < now_ts - firing_start)
    ∧ (∀ (firing_start now_ts : Nat),
        deadlineCheck none firing_start now_ts = none)
    ∧ (∀ (ν ω : Type) (ld : Option Nat) (firing_start now_ts : Nat)
        (f : List (String × ν) → Option LocalDeadlineMiss → ω)
        (outs : List (String × ν)),
        invokeOutputRule ld firing_start now_ts f outs
          = f outs (deadlineCheck ld firing_start now_ts)) := by
  refine ⟨?_, fun _ _ => rfl, fun _ _ _ _ _ _ _ => rfl⟩
  intro d fs nts
  simp only [deadlineCheck]
  by_cases h : d < nts - fs
  · simp [h]
  · simp [h]

/-- C2: a token whose action the input rule sets to `Drop` yields no `run`
input for that cycle — `run` never sees the dropped message and anything
emitted that cycle is a function of the empty input map, so the dropped
message never appears downstream; concretely, the drop-odd operator fed
1,2,3,4 delivers exactly 2,4 to the sink. -/
theorem c2_drop_action :
    (∀ (μ ν : Type) (rule : μ → Action × Bool) (runf : List μ → List ν) (m : μ),
        (rule m).1 = Action.Drop →
        (fireCycle rule runf m).runInputs = []
        ∧ ((fireCycle rule runf m).emitted = []
            ∨ (fireCycle rule runf m).emitted = runf []))
    ∧ runPipeline dropOddRule forwardRun [1, 2, 3, 4] = [2, 4] := by
  constructor
  · intro μ ν rule runf m h
    by_cases hb : (rule m).2
    · simp [fireCycle, hb, h, gather]
    · simp [fireCycle, hb, h]
  · decide

/-- Witness for C2: the odd value 1 is dropped — `run` gets no input — and
the end-to-end drop-odd pipeline delivers 2,4. -/
theorem c2_witness :
    ((fireCycle dropOddRule forwardRun 1).runInputs = []
      ∧ ((fireCycle dropOddRule forwardRun 1).emitted = []
          ∨ (fireCycle dropOddRule forwardRun 1).emitted = forwardRun []))
    ∧ runPipeline dropOddRule forwardRun [1, 2, 3, 4] = [2, 4] :=
  ⟨c2_drop_action.1 Nat Nat dropOddRule forwardRun 1 (by decide), c2_drop_action.2⟩

/-- C3: the default input rule returns true exactly when every input port's
token is `Ready`; in that case (the default rule leaves every action at its
default `Consume`) Gather hands `run` exactly one message per declared input
port: the ports of the inputs map are precisely the ports of the token map. -/
theorem c3_default_input_rule_fires :
    (∀ (μ : Type) (tokens : List (String × Token μ)),
        default_input_rule tokens = true ↔ ∀ pt ∈ tokens, (pt.2).isReady = true)
    ∧ (∀ (μ : Type) (tokens : List (String × Token μ)),
        default_input_rule tokens = true →
        (∀ pt ∈ tokens, ∀ m a, pt.2 = Token.Ready m a → a = Action.Consume) →
        (gather tokens).1.map Prod.fst = tokens.map Prod.fst) := by
  constructor
  · intro μ tokens
    simp [default_input_rule, List.all_eq_true]
  · intro μ tokens
    induction tokens with
    | nil => intro _ _; simp [gather]
    | cons hd tl ih =>
      intro hall hcons
      obtain ⟨p, t⟩ := hd
      rw [default_input_rule, List.all_cons, Bool.and_eq_true] at hall
      obtain ⟨hhd, htl⟩ := hall
      cases t with
      | Pending => simp [Token.isReady] at hhd
      | Ready m a =>
        have ha : a = Action.Consume :=
          hcons (p, Token.Ready m a) (List.mem_cons_self _ _) m a rfl
        subst ha
        have ih2 := ih (by rw [default_input_rule]; exact htl)
          (fun pt hpt m2 a2 hpa => hcons pt (List.mem_cons_of_mem _ hpt) m2 a2 hpa)
        simp [gather, ih2]

/-- Witness for C3: a single all-Ready token map with the default `Consume`
action yields one input per port. -/
theorem c3_witness :
    (gather [("a", Token.Ready (5 : Nat) Action.Consume)]).1.map Prod.fst
      = [("a", Token.Ready (5 : Nat) Action.Consume)].map Prod.fst :=
  c3_default_input_rule_fires.2 Nat [("a", Token.Ready 5 Action.Consume)]
    (by decide)
    (by
      intro pt hpt m a hpa
      simp only [List.mem_singleton] at hpt
      subst hpt
      exact (Token.Ready.inj hpa).2.symm)

theorem assocLookup_assocUpdate_self {β : Type} (l : List (String × β)) (k : String)
    (v v0 : β) (h : assocLookup l k = some v0) :
    assocLookup (assocUpdate l k v) k = some v := by
  induction l with
  | nil => simp [assocLookup] at h
  | cons hd tl ih =>
    obtain ⟨k0, w⟩ := hd
    by_cases h0 : k0 = k
    · subst h0
      simp [assocUpdate, assocLookup]
    · simp only [assocLookup, if_neg h0] at h
      simp [assocUpdate, assocLookup, h0, ih h]

theorem assocLookup_assocUpdate_ne {β : Type} (l : List (String × β)) (k k2 : String)
    (v : β) (h : k ≠ k2) :
    assocLookup (assocUpdate l k v) k2 = assocLookup l k2 := by
  induction l with
  | nil => simp [assocUpdate]
  | cons hd tl ih =>
    obtain ⟨k0, w⟩ := hd
    by_cases h0 : k0 = k
    · subst h0
      simp [assocUpdate, assocLookup, h]
    · simp [assocUpdate, assocLookup, h0, ih]

theorem stop_node_runningFresh (inst : InstanceState) (id : String)
    (h : runningFresh inst id) :
    stop_node inst id = .ok { inst with
      nodes := assocUpdate inst.nodes id { status := .stopped, finalizeCount := 1 }
      finalizeLog := inst.finalizeLog ++ [id] } := by
  unfold runningFresh at h
  unfold stop_node
  rw [h]
  rfl

theorem stopAll_lookup_not_mem (ids : List String) (inst r : InstanceState)
    (id : String) (hid : id ∉ ids) (h : stopAll inst ids = .ok r) :
    assocLookup r.nodes id = assocLookup inst.nodes id := by
  induction ids generalizing inst with
  | nil =>
    simp only [stopAll, Except.ok.injEq] at h
    rw [h]
  | cons hd tl ih =>
    simp only [List.mem_cons, not_or] at hid
    simp only [stopAll] at h
    cases hs : stop_node inst hd with
    | error e => rw [hs] at h; exact absurd h (by simp)
    | ok inst2 =>
      rw [hs] at h
      rw [ih inst2 hid.2 h]
      unfold stop_node at hs
      cases hl : assocLookup inst.nodes hd with
      | none => rw [hl] at hs; simp at hs
      | some ns =>
        simp only [hl] at hs
        by_cases hr : ns.status = .running
        · rw [if_pos hr] at hs
          rw [← Except.ok.inj hs]
          exact assocLookup_assocUpdate_ne inst.nodes hd id _ (fun hh => hid.1 hh.symm)
        · rw [if_neg hr] at hs
          exact absurd hs (by simp)

theorem stopAll_spec (ids : List String) (inst : InstanceState)
    (hrun : ∀ id ∈ ids, runningFresh inst id) (hnd : ids.Nodup) :
    exceptOk (stopAll inst ids) = true
    ∧ logOf (stopAll inst ids) = inst.finalizeLog ++ ids
    ∧ ∀ id ∈ ids, countOf (stopAll inst ids) id = some 1 := by
  induction ids generalizing inst with
  | nil =>
    simp [stopAll, logOf, exceptOk]
  | cons hd tl ih =>
    have hnd2 := List.nodup_cons.1 hnd
    have hfresh : runningFresh inst hd := hrun hd (List.mem_cons_self _ _)
    have hstop := stop_node_runningFresh inst hd hfresh
    simp only [stopAll, hstop]
    have hrun2 : ∀ id ∈ tl, runningFresh { inst with
        nodes := assocUpdate inst.nodes hd { status := .stopped, finalizeCount := 1 }
        finalizeLog := inst.finalizeLog ++ [hd] } id := by
      intro id hm
      have hne : hd ≠ id := fun hh => hnd2.1 (hh ▸ hm)
      unfold runningFresh
      rw [show ({ inst with
        nodes := assocUpdate inst.nodes hd { status := .stopped, finalizeCount := 1 }
        finalizeLog := inst.finalizeLog ++ [hd] } : InstanceState).nodes
          = assocUpdate inst.nodes hd { status := .stopped, finalizeCount := 1 } from rfl]
      rw [assocLookup_assocUpdate_ne inst.nodes hd id _ hne]
      exact hrun id (List.mem_cons_of_mem _ hm)
    obtain ⟨hok, hlog, hcnt⟩ := ih _ hrun2 hnd2.2
    refine ⟨hok, ?_, ?_⟩
    · rw [hlog]
      simp
    · intro id hm
      rcases List.mem_cons.1 hm with h1 | h2
      · rw [h1]
        cases hres : stopAll { inst with
            nodes := assocUpdate inst.nodes hd { status := .stopped, finalizeCount := 1 }
            finalizeLog := inst.finalizeLog ++ [hd] } tl with
        | error e => rw [hres] at hok; simp [exceptOk] at hok
        | ok r =>
          have hpres := stopAll_lookup_not_mem tl _ r hd hnd2.1 hres
          simp only [hres, countOf]
          rw [hpres]
          rw [show ({ inst with
            nodes := assocUpdate inst.nodes hd { status := .stopped, finalizeCount := 1 }
            finalizeLog := inst.finalizeLog ++ [hd] } : InstanceState).nodes
              = assocUpdate inst.nodes hd { status := .stopped, finalizeCount := 1 } from rfl]
          have hfr : assocLookup inst.nodes hd
              = some { status := .running, finalizeCount := 0 } := hfresh
          rw [assocLookup_assocUpdate_self inst.nodes hd
            { status := .stopped, finalizeCount := 1 } _ hfr]
          rfl
      · exact hcnt id h2

/-- C4: stopping a started node succeeds and invokes its `finalize` exactly
once — the node's finalize count goes from 0 to 1 and its id is appended to
the global finalize order; stopping several distinct started nodes in
sequence records their `finalize` invocations in exactly the order of the
`stop_node` calls, each with count 1. -/
theorem c4_stop_finalize_once :
    (∀ (inst : InstanceState) (id : String), runningFresh inst id →
        stop_node inst id = .ok { inst with
          nodes := assocUpdate inst.nodes id { status := .stopped, finalizeCount := 1 }
          finalizeLog := inst.finalizeLog ++ [id] })
    ∧ (∀ (inst : InstanceState) (ids : List String),
        (∀ id ∈ ids, runningFresh inst id) → ids.Nodup →
        exceptOk (stopAll inst ids) = true
        ∧ logOf (stopAll inst ids) = inst.finalizeLog ++ ids
        ∧ ∀ id ∈ ids, countOf (stopAll inst ids) id = some 1) :=
  ⟨stop_node_runningFresh, fun inst ids h1 h2 => stopAll_spec ids inst h1 h2⟩

/-- Witness for C4 on a two-node instance: stopping `a` then `b` succeeds
and the finalize order is exactly `a`, `b`. -/
theorem c4_witness :
    exceptOk (stopAll ⟨[("a", ⟨.running, 0⟩), ("b", ⟨.running, 0⟩)], [], 2⟩
        ["a", "b"]) = true
    ∧ logOf (stopAll ⟨[("a", ⟨.running, 0⟩), ("b", ⟨.running, 0⟩)], [], 2⟩
        ["a", "b"]) = [] ++ ["a", "b"] :=
  ⟨(c4_stop_finalize_once.2 ⟨[("a", ⟨.running, 0⟩), ("b", ⟨.running, 0⟩)], [], 2⟩
      ["a", "b"]
      (by
        intro id hm
        rcases List.mem_cons.1 hm with rfl | hm2
        · rfl
        · rcases List.mem_cons.1 hm2 with rfl | hm3
          · rfl
          · cases hm3)
      (by decide)).1,
    (c4_stop_finalize_once.2 ⟨[("a", ⟨.running, 0⟩), ("b", ⟨.running, 0⟩)], [], 2⟩
      ["a", "b"]
      (by
        intro id hm
        rcases List.mem_cons.1 hm with rfl | hm2
        · rfl
        · rcases List.mem_cons.1 hm2 with rfl | hm3
          · rfl
          · cases hm3)
      (by decide)).2.1⟩

/-- C6: `kill` on a node aborts its runner — the node's status becomes
`killed` — and its `finalize` is not invoked: the finalize count is left
exactly as it was; in particular a running node that was never stopped has
invocation count 0 after being killed. -/
theorem c6_kill_skips_finalize :
    (∀ (inst : InstanceState) (id : String) (ns : NodeState),
        assocLookup inst.nodes id = some ns → ns.status = .running →
        kill inst id = .ok { inst with
          nodes := assocUpdate inst.nodes id { ns with status := .killed } }
        ∧ countOf (kill inst id) id = some ns.finalizeCount)
    ∧ (∀ (inst : InstanceState) (id : String), runningFresh inst id →
        countOf (kill inst id) id = some 0) := by
  have hmain : ∀ (inst : InstanceState) (id : String) (ns : NodeState),
      assocLookup inst.nodes id = some ns →
      kill inst id = .ok { inst with
        nodes := assocUpdate inst.nodes id { ns with status := .killed } }
      ∧ countOf (kill inst id) id = some ns.finalizeCount := by
    intro inst id ns h
    have hk : kill inst id = .ok { inst with
        nodes := assocUpdate inst.nodes id { ns with status := .killed } } := by
      unfold kill
      rw [h]
    refine ⟨hk, ?_⟩
    rw [hk]
    simp only [countOf]
    rw [assocLookup_assocUpdate_self inst.nodes id { ns with status := .killed } ns h]
    rfl
  exact ⟨fun inst id ns h _ => hmain inst id ns h,
    fun inst id h => (hmain inst id { status := .running, finalizeCount := 0 } h).2⟩

/-- Witness for C6 on a concrete running node: after `kill`, the status is
`killed` and the finalize count is still 0. -/
theorem c6_witness :
    kill ⟨[("a", ⟨.running, 0⟩)], [], 1⟩ "a"
      = .ok ⟨assocUpdate [("a", ⟨.running, 0⟩)] "a" ⟨.killed, 0⟩, [], 1⟩
    ∧ countOf (kill ⟨[("a", ⟨.running, 0⟩)], [], 1⟩ "a") "a" = some 0 :=
  c6_kill_skips_finalize.1 ⟨[("a", ⟨.running, 0⟩)], [], 1⟩ "a" ⟨.running, 0⟩ rfl rfl

/-- C7: `start_node` on a node that is not running spawns its runner task
(the node becomes `running` and the spawned-task counter increases by one);
on a node that is already running it returns `AlreadyRunning` and produces
no new state — no second task is spawned. -/
theorem c7_start_node_idempotent :
    ∀ (inst : InstanceState) (id : String) (ns : NodeState),
      assocLookup inst.nodes id = some ns →
      (ns.status = .running → start_node inst id = .error .AlreadyRunning)
      ∧ (ns.status ≠ .running → start_node inst id = .ok { inst with
          nodes := assocUpdate inst.nodes id { ns with status := .running }
          tasksSpawned := inst.tasksSpawned + 1 }) := by
  intro inst id ns h
  constructor
  · intro hr
    unfold start_node
    rw [h]
    simp [hr]
  · intro hr
    unfold start_node
    rw [h]
    simp [hr]

/-- Witness for C7: starting an idle node spawns its task; starting it again
returns `AlreadyRunning`. -/
theorem c7_witness :
    start_node ⟨[("a", ⟨.idle, 0⟩)], [], 0⟩ "a"
      = .ok ⟨assocUpdate [("a", ⟨.idle, 0⟩)] "a" ⟨.running, 0⟩, [], 1⟩
    ∧ start_node ⟨[("a", ⟨.running, 0⟩)], [], 1⟩ "a" = .error .AlreadyRunning :=
  ⟨(c7_start_node_idempotent ⟨[("a", ⟨.idle, 0⟩)], [], 0⟩ "a" ⟨.idle, 0⟩ rfl).2
      (by decide),
    (c7_start_node_idempotent ⟨[("a", ⟨.running, 0⟩)], [], 1⟩ "a" ⟨.running, 0⟩ rfl).1
      rfl⟩

/-- C5: each builder operation validates its invariant and reports a typed
error when it is violated, succeeding otherwise: the three add-node
operations succeed exactly when the node id is fresh and return
`DuplicateNode` otherwise; `try_add_link` succeeds exactly when both
endpoints exist, their port types are equal, and the input port has no
incoming link yet — returning `UnknownPort`, `PortTypeMismatch` or
`DuplicateLink` respectively when not. -/
theorem c5_builder_validation :
    (∀ (df : Dataflow) (id : String) (pd : PortDescriptor),
        (exceptOk (try_add_static_source df id pd) = true ↔ id ∉ nodeIds df)
        ∧ (id ∈ nodeIds df →
            try_add_static_source df id pd = .error .DuplicateNode))
    ∧ (∀ (df : Dataflow) (id : String) (ins outs : List PortDescriptor)
        (ld : Option Nat),
        (exceptOk (try_add_static_operator df id ins outs ld) = true ↔
          id ∉ nodeIds df)
        ∧ (id ∈ nodeIds df →
            try_add_static_operator df id ins outs ld = .error .DuplicateNode))
    ∧ (∀ (df : Dataflow) (id : String) (pd : PortDescriptor),
        (exceptOk (try_add_static_sink df id pd) = true ↔ id ∉ nodeIds df)
        ∧ (id ∈ nodeIds df →
            try_add_static_sink df id pd = .error .DuplicateNode))
    ∧ (∀ (df : Dataflow) (src : OutputDescriptor) (dst : InputDescriptor),
        (exceptOk (try_add_link df src dst) = true ↔
          ∃ ty, outputPortType df src.node src.output = some ty
            ∧ inputPortType df dst.node dst.input = some ty
            ∧ hasInboundLink df dst.node dst.input = false)
        ∧ (outputPortType df src.node src.output = none
            ∨ inputPortType df dst.node dst.input = none →
            try_add_link df src dst = .error .UnknownPort)
        ∧ (∀ t1 t2, outputPortType df src.node src.output = some t1 →
            inputPortType df dst.node dst.input = some t2 → t1 ≠ t2 →
            try_add_link df src dst = .error .PortTypeMismatch)
        ∧ (∀ t, outputPortType df src.node src.output = some t →
            inputPortType df dst.node dst.input = some t →
            hasInboundLink df dst.node dst.input = true →
            try_add_link df src dst = .error .DuplicateLink)) := by
  refine ⟨?_, ?_, ?_, ?_⟩
  · intro df id pd
    by_cases h : id ∈ nodeIds df
    · exact ⟨by simp [try_add_static_source, h, exceptOk],
        fun _ => by simp [try_add_static_source, h]⟩
    · exact ⟨by simp [try_add_static_source, h, exceptOk],
        fun hmem => absurd hmem h⟩
  · intro df id ins outs ld
    by_cases h : id ∈ nodeIds df
    · exact ⟨by simp [try_add_static_operator, h, exceptOk],
        fun _ => by simp [try_add_static_operator, h]⟩
    · exact ⟨by simp [try_add_static_operator, h, exceptOk],
        fun hmem => absurd hmem h⟩
  · intro df id pd
    by_cases h : id ∈ nodeIds df
    · exact ⟨by simp [try_add_static_sink, h, exceptOk],
        fun _ => by simp [try_add_static_sink, h]⟩
    · exact ⟨by simp [try_add_static_sink, h, exceptOk],
        fun hmem => absurd hmem h⟩
  · intro df src dst
    refine ⟨?_, ?_, ?_, ?_⟩
    · cases ho : outputPortType df src.node src.output with
      | none => simp [try_add_link, ho, exceptOk]
      | some t1 =>
        cases hi : inputPortType df dst.node dst.input with
        | none => simp [try_add_link, ho, hi, exceptOk]
        | some t2 =>
          by_cases ht : t1 = t2
          · subst ht
            by_cases hl : hasInboundLink df dst.node dst.input
            · simp [try_add_link, ho, hi, hl, exceptOk]
            · simp [try_add_link, ho, hi, hl, exceptOk]
          · simp [try_add_link, ho, hi, ht, exceptOk]
            exact fun hh => absurd hh.symm ht
    · intro hor
      rcases hor with h | h
      · simp [try_add_link, h]
      · cases ho : outputPortType df src.node src.output with
        | none => simp [try_add_link, ho]
        | some t1 => simp [try_add_link, ho, h]
    · intro t1 t2 h1 h2 hne
      simp [try_add_link, h1, h2, hne]
    · intro t h1 h2 hl
      simp [try_add_link, h1, h2, hl]

/-- Witness for C5 on a concrete builder state with a source `s` and a sink
`k`: re-adding node id `s` is `DuplicateNode`, and linking to a port the
sink does not declare is `UnknownPort`. -/
theorem c5_witness :
    try_add_static_source ⟨[("s", ⟨"out", "int"⟩)], [], [("k", ⟨"in", "int"⟩)], []⟩
        "s" ⟨"out2", "int"⟩ = .error .DuplicateNode
    ∧ try_add_link ⟨[("s", ⟨"out", "int"⟩)], [], [("k", ⟨"in", "int"⟩)], []⟩
        ⟨"s", "out"⟩ ⟨"k", "bad"⟩ = .error .UnknownPort :=
  ⟨(c5_builder_validation.1
      ⟨[("s", ⟨"out", "int"⟩)], [], [("k", ⟨"in", "int"⟩)], []⟩
      "s" ⟨"out2", "int"⟩).2 (by decide),
    (c5_builder_validation.2.2.2
      ⟨[("s", ⟨"out", "int"⟩)], [], [("k", ⟨"in", "int"⟩)], []⟩
      ⟨"s", "out"⟩ ⟨"k", "bad"⟩).2.1 (Or.inr (by decide))⟩

end ZenohFlow
